import Mathlib

/-!
Verification of the client-side audio session and playback coordinator of the
Spanish-tutoring chat application. Definitions are shallow embeddings of the
JavaScript source (the mature React component): the TTSCache class, the
TTSManager playback driver, the WAV blob builder, the recording gesture
handlers, the capture-mode switching counters, the acquisition-token logic and
the operation-id staleness checks. Theorems settle the spec claims about them.
-/

/- ============================================================
   TTSCache (class TTSCache): bounded LRU store of synthesized
   speech resources. Entries are kept in a JS-Map-like association
   list in insertion order; object URLs are abstract Nat handles.
   ============================================================ -/

structure CacheEntry where
  url : Nat
  byteSize : Nat
  lastUsed : Nat
  isPlaying : Bool
deriving DecidableEq, Repr

structure TTSCacheState where
  cache : List (String × CacheEntry)
  maxSize : Nat
  totalBytes : Nat
  /-- The mature TTSCache constructor sets cache, maxSize, totalBytes and
  statsCounter only; there is no playingIds field, so reading it yields
  the JS value undefined, modelled as none. -/
  playingIds : Option Unit
  nextUrl : Nat
  revoked : List Nat
  now : Nat
deriving DecidableEq, Repr

/-- The TTSCache constructor: empty map, capacity argument, no playingIds. -/
def TTSCache.mkCache (maxSize : Nat) : TTSCacheState :=
  ⟨[], maxSize, 0, none, 0, [], 0⟩

/-- JS Map.delete on an association list (keys are unique in a Map). -/
def mapDelete (l : List (String × CacheEntry)) (id : String) :
    List (String × CacheEntry) :=
  l.filter (fun p => !(p.1 == id))

/-- JS Map.set: replace in place if the key is present, else append. -/
def mapSet (l : List (String × CacheEntry)) (id : String) (e : CacheEntry) :
    List (String × CacheEntry) :=
  if l.any (fun p => p.1 == id) then
    l.map (fun p => if p.1 == id then (id, e) else p)
  else
    l ++ [(id, e)]

/-- One iteration of the TTSCache._findLRUVictim loop: keep the non-playing
entry with the strictly smallest lastUsed seen so far (oldestTime starts at
Infinity, so the first non-playing entry is always taken). -/
def victimStep (acc : Option (String × CacheEntry)) (p : String × CacheEntry) :
    Option (String × CacheEntry) :=
  match acc with
  | none => if p.2.isPlaying then none else some p
  | some q =>
      if p.2.isPlaying = false ∧ p.2.lastUsed < q.2.lastUsed then some p
      else some q

/-- The TTSCache._findLRUVictim scan over the entries in map order. -/
def victimFold : Option (String × CacheEntry) → List (String × CacheEntry) →
    Option (String × CacheEntry)
  | acc, [] => acc
  | acc, p :: rest => victimFold (victimStep acc p) rest

theorem victimStep_none (p : String × CacheEntry) :
    victimStep none p = if p.2.isPlaying then none else some p := rfl

theorem victimStep_some (a p : String × CacheEntry) :
    victimStep (some a) p =
      if p.2.isPlaying = false ∧ p.2.lastUsed < a.2.lastUsed then some p
      else some a := rfl

/-- TTSCache._findLRUVictim. -/
def TTSCache.findLRUVictim (s : TTSCacheState) : Option (String × CacheEntry) :=
  victimFold none s.cache

structure SetResult where
  url : Nat
  isTemp : Bool
deriving DecidableEq, Repr

/-- TTSCache.set(messageId, blob): create an object URL, build the entry; if at
capacity, evict the LRU non-playing victim if one exists, otherwise return the
URL as a temporary non-cached handle; then store the entry. -/
def TTSCache.set (s : TTSCacheState) (id : String) (blobSize : Nat) :
    TTSCacheState × SetResult :=
  let url := s.nextUrl
  let e : CacheEntry := ⟨url, blobSize, s.now, false⟩
  let s0 := { s with nextUrl := s.nextUrl + 1 }
  if s.maxSize ≤ s0.cache.length then
    match TTSCache.findLRUVictim s0 with
    | some (vid, ve) =>
        let s1 := { s0 with
          revoked := s0.revoked ++ [ve.url],
          totalBytes := s0.totalBytes - ve.byteSize,
          cache := mapDelete s0.cache vid }
        ({ s1 with cache := mapSet s1.cache id e,
                   totalBytes := s1.totalBytes + blobSize },
         ⟨url, false⟩)
    | none => (s0, ⟨url, true⟩)
  else
    ({ s0 with cache := mapSet s0.cache id e,
               totalBytes := s0.totalBytes + blobSize },
     ⟨url, false⟩)

/-- TTSCache.get(messageId): on a hit, refresh lastUsed and move the entry to
the end of the map (most recently used), returning its URL. -/
def TTSCache.get (s : TTSCacheState) (id : String) :
    TTSCacheState × Option Nat :=
  match s.cache.find? (fun p => p.1 == id) with
  | some (_, e) =>
      let e' := { e with lastUsed := s.now }
      ({ s with cache := mapDelete s.cache id ++ [(id, e')] }, some e'.url)
  | none => (s, none)

/-- TTSCache.markPlaying(messageId, playing): toggle the eviction-protection
flag in place and refresh lastUsed when the entry exists. -/
def TTSCache.markPlaying (s : TTSCacheState) (id : String) (playing : Bool) :
    TTSCacheState :=
  { s with cache := s.cache.map (fun p =>
      if p.1 == id then (p.1, { p.2 with isPlaying := playing, lastUsed := s.now })
      else p) }

def TTSCache.markStopped (s : TTSCacheState) (id : String) : TTSCacheState :=
  TTSCache.markPlaying s id false

structure ClearOutcome where
  revokedNow : List Nat
  cacheAfter : List (String × CacheEntry)
  thrown : Option String
deriving DecidableEq, Repr

/-- TTSCache.clear(): revoke every cached object URL, empty the map, then call
this.playingIds.clear(); when playingIds is undefined that member access throws
a TypeError. -/
def TTSCache.clear (s : TTSCacheState) : ClearOutcome :=
  { revokedNow := s.cache.map (fun p => p.2.url),
    cacheAfter := [],
    thrown := match s.playingIds with
              | none => some "TypeError"
              | some _ => none }

/-- One cache operation of the interleaved call sequences the component makes. -/
inductive CacheOp
  | get (id : String)
  | set (id : String) (blobSize : Nat)
  | markPlaying (id : String) (playing : Bool)
  | markStopped (id : String)
deriving DecidableEq, Repr

/-- Run one cache operation and advance the Date.now() clock. -/
def cacheStep (s : TTSCacheState) : CacheOp → TTSCacheState
  | .get id => { (TTSCache.get s id).1 with now := s.now + 1 }
  | .set id b => { (TTSCache.set s id b).1 with now := s.now + 1 }
  | .markPlaying id p => { TTSCache.markPlaying s id p with now := s.now + 1 }
  | .markStopped id => { TTSCache.markStopped s id with now := s.now + 1 }

/-- The cache instance used by the component: new TTSCache(20), then the
given call sequence. -/
def runCache (ops : List CacheOp) : TTSCacheState :=
  ops.foldl cacheStep (TTSCache.mkCache 20)

/- Lemmas about the LRU victim scan. -/

theorem victimFold_playing_false : ∀ (l : List (String × CacheEntry))
    (acc : Option (String × CacheEntry)) (q : String × CacheEntry),
    (∀ r, acc = some r → r.2.isPlaying = false) →
    victimFold acc l = some q → q.2.isPlaying = false := by
  intro l
  induction l with
  | nil =>
      intro acc q hacc h
      exact hacc q h
  | cons p rest ih =>
      intro acc q hacc h
      rw [victimFold] at h
      refine ih _ q ?_ h
      intro r hr
      cases acc with
      | none =>
          rw [victimStep_none] at hr
          by_cases hp : p.2.isPlaying
          · rw [if_pos hp] at hr
            exact absurd hr (by simp)
          · rw [if_neg hp] at hr
            cases hr
            simpa using hp
      | some a =>
          rw [victimStep_some] at hr
          by_cases hcond : p.2.isPlaying = false ∧ p.2.lastUsed < a.2.lastUsed
          · rw [if_pos hcond] at hr
            cases hr
            exact hcond.1
          · rw [if_neg hcond] at hr
            exact hacc r hr

theorem victimFold_mem : ∀ (l : List (String × CacheEntry))
    (acc : Option (String × CacheEntry)) (q : String × CacheEntry),
    victimFold acc l = some q → acc = some q ∨ q ∈ l := by
  intro l
  induction l with
  | nil =>
      intro acc q h
      exact Or.inl h
  | cons p rest ih =>
      intro acc q h
      rw [victimFold] at h
      rcases ih _ q h with h1 | h2
      · cases acc with
        | none =>
            rw [victimStep_none] at h1
            by_cases hp : p.2.isPlaying
            · rw [if_pos hp] at h1
              exact absurd h1 (by simp)
            · rw [if_neg hp] at h1
              cases h1
              exact Or.inr (List.mem_cons_self _ _)
        | some a =>
            rw [victimStep_some] at h1
            by_cases hcond : p.2.isPlaying = false ∧ p.2.lastUsed < a.2.lastUsed
            · rw [if_pos hcond] at h1
              cases h1
              exact Or.inr (List.mem_cons_self _ _)
            · rw [if_neg hcond] at h1
              exact Or.inl h1
      · exact Or.inr (List.mem_cons_of_mem _ h2)

theorem victimFold_min : ∀ (l : List (String × CacheEntry))
    (acc : Option (String × CacheEntry)) (q : String × CacheEntry),
    victimFold acc l = some q →
    (∀ p ∈ l, p.2.isPlaying = false → q.2.lastUsed ≤ p.2.lastUsed)
    ∧ (∀ r, acc = some r → q.2.lastUsed ≤ r.2.lastUsed) := by
  intro l
  induction l with
  | nil =>
      intro acc q h
      refine ⟨by simp, ?_⟩
      intro r hr
      rw [hr] at h
      cases h
      exact Nat.le_refl _
  | cons p rest ih =>
      intro acc q h
      rw [victimFold] at h
      have hrest := ih _ q h
      cases acc with
      | none =>
          rw [victimStep_none] at hrest
          by_cases hp : p.2.isPlaying
          · rw [if_pos hp] at hrest
            refine ⟨?_, by simp⟩
            intro p' hp' hplay
            rcases List.mem_cons.mp hp' with rfl | hmem
            · rw [hplay] at hp
              exact absurd hp (by simp)
            · exact hrest.1 p' hmem hplay
          · rw [if_neg hp] at hrest
            refine ⟨?_, by simp⟩
            intro p' hp' hplay
            rcases List.mem_cons.mp hp' with rfl | hmem
            · exact hrest.2 p' rfl
            · exact hrest.1 p' hmem hplay
      | some a =>
          rw [victimStep_some] at hrest
          by_cases hcond : p.2.isPlaying = false ∧ p.2.lastUsed < a.2.lastUsed
          · rw [if_pos hcond] at hrest
            have hqp : q.2.lastUsed ≤ p.2.lastUsed := hrest.2 p rfl
            refine ⟨?_, ?_⟩
            · intro p' hp' hplay
              rcases List.mem_cons.mp hp' with rfl | hmem
              · exact hqp
              · exact hrest.1 p' hmem hplay
            · intro r hr
              cases hr
              exact Nat.le_trans hqp (Nat.le_of_lt hcond.2)
          · rw [if_neg hcond] at hrest
            have hqa : q.2.lastUsed ≤ a.2.lastUsed := hrest.2 a rfl
            refine ⟨?_, ?_⟩
            · intro p' hp' hplay
              rcases List.mem_cons.mp hp' with rfl | hmem
              · have hnlt : ¬ p'.2.lastUsed < a.2.lastUsed := by
                  intro hlt
                  exact hcond ⟨hplay, hlt⟩
                exact Nat.le_trans hqa (Nat.le_of_not_lt hnlt)
              · exact hrest.1 p' hmem hplay
            · intro r hr
              cases hr
              exact hqa

theorem victimFold_none_of_all_playing : ∀ (l : List (String × CacheEntry)),
    (∀ p ∈ l, p.2.isPlaying = true) → victimFold none l = none := by
  intro l
  induction l with
  | nil => intro _; rfl
  | cons p rest ih =>
      intro hall
      have hp : p.2.isPlaying = true := hall p (List.mem_cons_self _ _)
      rw [victimFold, victimStep_none, if_pos hp]
      exact ih (fun p' hp' => hall p' (List.mem_cons_of_mem _ hp'))

/- Size-bound lemmas for the cache. -/

theorem length_filter_lt_of_mem {α : Type} {l : List α} {a : α} {p : α → Bool}
    (ha : a ∈ l) (hpa : p a = false) : (l.filter p).length < l.length := by
  induction l with
  | nil => cases ha
  | cons x xs ih =>
      rcases List.mem_cons.mp ha with rfl | hmem
      · rw [List.filter_cons, hpa]
        exact Nat.lt_succ_of_le (List.length_filter_le _ _)
      · cases hx : p x
        · rw [List.filter_cons, hx]
          exact Nat.lt_succ_of_lt (ih hmem)
        · rw [List.filter_cons, hx]
          simpa using Nat.succ_lt_succ (ih hmem)

theorem mapSet_length_le (l : List (String × CacheEntry)) (id : String)
    (e : CacheEntry) : (mapSet l id e).length ≤ l.length + 1 := by
  unfold mapSet
  split
  · simp
  · simp

theorem mem_mapSet (l : List (String × CacheEntry)) (id : String)
    (e : CacheEntry) : (id, e) ∈ mapSet l id e := by
  unfold mapSet
  split
  · rename_i hany
    rcases List.any_eq_true.mp hany with ⟨p, hp, hpid⟩
    exact List.mem_map.mpr ⟨p, hp, by simp [hpid]⟩
  · exact List.mem_append_right _ (List.mem_singleton.mpr rfl)

theorem TTSCache.set_cache_length (s : TTSCacheState) (id : String) (b : Nat)
    (h : s.cache.length ≤ s.maxSize) :
    (TTSCache.set s id b).1.cache.length ≤ s.maxSize := by
  unfold TTSCache.set
  by_cases hcap : s.maxSize ≤ s.cache.length
  · rw [if_pos hcap]
    cases hvic : TTSCache.findLRUVictim { s with nextUrl := s.nextUrl + 1 } with
    | some q =>
        obtain ⟨vid, ve⟩ := q
        have hmem : (vid, ve) ∈ s.cache := by
          rcases victimFold_mem s.cache none (vid, ve) hvic with h1 | h2
          · cases h1
          · exact h2
        have hdel : (mapDelete s.cache vid).length < s.cache.length :=
          length_filter_lt_of_mem hmem (by simp)
        have hset := mapSet_length_le (mapDelete s.cache vid) id
          ⟨s.nextUrl, b, s.now, false⟩
        simp only
        omega
    | none => simpa using h
  · rw [if_neg hcap]
    have hset := mapSet_length_le s.cache id ⟨s.nextUrl, b, s.now, false⟩
    simp only
    omega

theorem TTSCache.get_cache_length (s : TTSCacheState) (id : String)
    (h : s.cache.length ≤ s.maxSize) :
    (TTSCache.get s id).1.cache.length ≤ s.maxSize := by
  unfold TTSCache.get
  cases hfind : s.cache.find? (fun p => p.1 == id) with
  | some q =>
      obtain ⟨k, e⟩ := q
      have hmem : (k, e) ∈ s.cache := List.mem_of_find?_eq_some hfind
      have hpid : (k == id) = true := by
        simpa using List.find?_some hfind
      have hdel : (mapDelete s.cache id).length < s.cache.length :=
        length_filter_lt_of_mem hmem (by simp [hpid])
      simp only [List.length_append, List.length_cons, List.length_nil]
      omega
  | none => simpa using h

/-- The state invariant kept by every cache operation: the size bound, the
configured capacity, and the never-assigned playingIds field. -/
def CacheInv (s : TTSCacheState) : Prop :=
  s.cache.length ≤ s.maxSize ∧ s.maxSize = 20 ∧ s.playingIds = none

theorem TTSCache.set_maxSize (s : TTSCacheState) (id : String) (b : Nat) :
    (TTSCache.set s id b).1.maxSize = s.maxSize := by
  unfold TTSCache.set
  by_cases hcap : s.maxSize ≤ s.cache.length
  · rw [if_pos hcap]
    cases hvic : TTSCache.findLRUVictim { s with nextUrl := s.nextUrl + 1 } with
    | some q => obtain ⟨vid, ve⟩ := q; rfl
    | none => rfl
  · rw [if_neg hcap]

theorem TTSCache.set_playingIds (s : TTSCacheState) (id : String) (b : Nat) :
    (TTSCache.set s id b).1.playingIds = s.playingIds := by
  unfold TTSCache.set
  by_cases hcap : s.maxSize ≤ s.cache.length
  · rw [if_pos hcap]
    cases hvic : TTSCache.findLRUVictim { s with nextUrl := s.nextUrl + 1 } with
    | some q => obtain ⟨vid, ve⟩ := q; rfl
    | none => rfl
  · rw [if_neg hcap]

theorem TTSCache.get_maxSize (s : TTSCacheState) (id : String) :
    (TTSCache.get s id).1.maxSize = s.maxSize := by
  unfold TTSCache.get
  split <;> rfl

theorem TTSCache.get_playingIds (s : TTSCacheState) (id : String) :
    (TTSCache.get s id).1.playingIds = s.playingIds := by
  unfold TTSCache.get
  split <;> rfl

theorem cacheStep_inv (s : TTSCacheState) (op : CacheOp) (h : CacheInv s) :
    CacheInv (cacheStep s op) := by
  obtain ⟨hlen, hmax, hplay⟩ := h
  cases op with
  | get id =>
      exact ⟨by simpa [cacheStep, TTSCache.get_maxSize]
               using TTSCache.get_cache_length s id hlen,
             by simpa [cacheStep, TTSCache.get_maxSize] using hmax,
             by simpa [cacheStep, TTSCache.get_playingIds] using hplay⟩
  | set id b =>
      exact ⟨by simpa [cacheStep, TTSCache.set_maxSize]
               using TTSCache.set_cache_length s id b hlen,
             by simpa [cacheStep, TTSCache.set_maxSize] using hmax,
             by simpa [cacheStep, TTSCache.set_playingIds] using hplay⟩
  | markPlaying id p =>
      exact ⟨by simpa [cacheStep, TTSCache.markPlaying] using hlen,
             by simpa [cacheStep, TTSCache.markPlaying] using hmax,
             by simpa [cacheStep, TTSCache.markPlaying] using hplay⟩
  | markStopped id =>
      exact ⟨by simpa [cacheStep, TTSCache.markStopped, TTSCache.markPlaying]
               using hlen,
             by simpa [cacheStep, TTSCache.markStopped, TTSCache.markPlaying]
               using hmax,
             by simpa [cacheStep, TTSCache.markStopped, TTSCache.markPlaying]
               using hplay⟩

theorem foldl_cacheStep_inv : ∀ (ops : List CacheOp) (s : TTSCacheState),
    CacheInv s → CacheInv (ops.foldl cacheStep s) := by
  intro ops
  induction ops with
  | nil => intro s h; exact h
  | cons op rest ih =>
      intro s h
      exact ih (cacheStep s op) (cacheStep_inv s op h)

theorem runCache_inv (ops : List CacheOp) : CacheInv (runCache ops) :=
  foldl_cacheStep_inv ops (TTSCache.mkCache 20) ⟨by simp [TTSCache.mkCache], rfl, rfl⟩

/-- C3: for every sequence of cache calls starting from new TTSCache(20), the
cache never holds more than 20 non-evicted entries, and the victim the
eviction scan selects is never a playing entry: it is the least-recently-used
entry among those not marked playing. -/
theorem c3_cache_bound_and_lru_nonplaying_victim : ∀ (ops : List CacheOp),
    (runCache ops).cache.length ≤ 20
    ∧ ∀ q, TTSCache.findLRUVictim (runCache ops) = some q →
        q.2.isPlaying = false
        ∧ ∀ p ∈ (runCache ops).cache, p.2.isPlaying = false →
            q.2.lastUsed ≤ p.2.lastUsed := by
  intro ops
  have hinv := runCache_inv ops
  refine ⟨hinv.2.1 ▸ hinv.1, ?_⟩
  intro q hq
  refine ⟨victimFold_playing_false _ none q (fun r hr => by cases hr) hq, ?_⟩
  exact (victimFold_min _ none q hq).1

/-- Witness for C3 at a concrete call sequence: two entries cached, the first
marked playing; the bound holds and the selected victim is the non-playing
second entry. -/
theorem c3_witness :
    (runCache [CacheOp.set "a" 5, CacheOp.set "b" 6,
               CacheOp.markPlaying "a" true]).cache.length ≤ 20
    ∧ (("b", (⟨1, 6, 1, false⟩ : CacheEntry)) : String × CacheEntry).2.isPlaying
        = false := by
  have h := c3_cache_bound_and_lru_nonplaying_victim
    [CacheOp.set "a" 5, CacheOp.set "b" 6, CacheOp.markPlaying "a" true]
  exact ⟨h.1, (h.2 ("b", ⟨1, 6, 1, false⟩) (by decide)).1⟩

/-- C4: when set is called with the cache at capacity, it evicts the
least-recently-used non-playing entry (revoking its URL) and caches the new
entry; when every cached entry is marked playing it terminates without
evicting, leaves the cache unchanged and returns a throwaway temp URL. -/
theorem c4_set_at_capacity (s : TTSCacheState) (id : String) (b : Nat)
    (hcap : s.maxSize ≤ s.cache.length) :
    ((∀ p ∈ s.cache, p.2.isPlaying = true) →
        (TTSCache.set s id b).2.isTemp = true
        ∧ (TTSCache.set s id b).1.cache = s.cache)
    ∧ (∀ q, TTSCache.findLRUVictim s = some q →
        (TTSCache.set s id b).2.isTemp = false
        ∧ q.2.isPlaying = false
        ∧ (∀ p ∈ s.cache, p.2.isPlaying = false → q.2.lastUsed ≤ p.2.lastUsed)
        ∧ q.2.url ∈ (TTSCache.set s id b).1.revoked
        ∧ ((id, (⟨s.nextUrl, b, s.now, false⟩ : CacheEntry)) : String × CacheEntry)
            ∈ (TTSCache.set s id b).1.cache) := by
  constructor
  · intro hall
    have hvic : TTSCache.findLRUVictim { s with nextUrl := s.nextUrl + 1 } = none :=
      victimFold_none_of_all_playing s.cache hall
    unfold TTSCache.set
    rw [if_pos hcap, hvic]
    exact ⟨rfl, rfl⟩
  · intro q hq
    obtain ⟨vid, ve⟩ := q
    have hvic : TTSCache.findLRUVictim { s with nextUrl := s.nextUrl + 1 }
        = some (vid, ve) := hq
    have hplay := victimFold_playing_false s.cache none (vid, ve)
      (fun r hr => by cases hr) hq
    have hmin := (victimFold_min s.cache none (vid, ve) hq).1
    refine ⟨?_, hplay, hmin, ?_, ?_⟩
    · unfold TTSCache.set
      rw [if_pos hcap, hvic]
    · unfold TTSCache.set
      rw [if_pos hcap, hvic]
      exact List.mem_append_right _ (List.mem_singleton.mpr rfl)
    · unfold TTSCache.set
      rw [if_pos hcap, hvic]
      exact mem_mapSet _ id _

/-- Witness for C4 at a concrete state: a capacity-2 cache whose two entries
are both playing; set terminates, evicts nothing and returns a temp handle. -/
theorem c4_witness :
    (TTSCache.set ⟨[("a", ⟨0, 1, 0, true⟩), ("b", ⟨1, 1, 1, true⟩)],
        2, 2, none, 2, [], 5⟩ "c" 7).2.isTemp = true
    ∧ (TTSCache.set ⟨[("a", ⟨0, 1, 0, true⟩), ("b", ⟨1, 1, 1, true⟩)],
        2, 2, none, 2, [], 5⟩ "c" 7).1.cache
      = [("a", ⟨0, 1, 0, true⟩), ("b", ⟨1, 1, 1, true⟩)] :=
  (c4_set_at_capacity ⟨[("a", ⟨0, 1, 0, true⟩), ("b", ⟨1, 1, 1, true⟩)],
      2, 2, none, 2, [], 5⟩ "c" 7 (by decide)).1 (by decide)

/-- C10: every call to clear on a reachable cache state revokes each cached
object URL and empties the map, and then throws a TypeError, because the
playingIds field the method reads is never given a value by this class. -/
theorem c10_clear_always_throws : ∀ (ops : List CacheOp),
    (TTSCache.clear (runCache ops)).thrown = some "TypeError"
    ∧ (TTSCache.clear (runCache ops)).cacheAfter = []
    ∧ (TTSCache.clear (runCache ops)).revokedNow
        = (runCache ops).cache.map (fun p => p.2.url) := by
  intro ops
  have hplay := (runCache_inv ops).2.2
  refine ⟨?_, rfl, rfl⟩
  unfold TTSCache.clear
  rw [hplay]

/- ============================================================
   Capture-mode switching (processAudio): consecutiveFailuresRef,
   wavSuccessCountRef and captureMode updates on each STT outcome.
   ============================================================ -/

inductive CaptureMode
  | mp4
  | wav
deriving DecidableEq, Repr

structure ModeCounters where
  mode : CaptureMode
  consecutiveFailures : Nat
  wavSuccessCount : Nat
deriving DecidableEq, Repr

inductive STTOutcome
  | success
  | decodeFailure
  | abortError
  | networkError
deriving DecidableEq, Repr

/-- The counter updates processAudio performs per transcription outcome: on
success the failure counter resets and, in WAV mode, the WAV success counter
advances and switches back to MP4 at 3; on a decode-style failure the failure
counter advances, the WAV success counter resets, and 2 consecutive failures
in MP4 mode switch to WAV. Abort and network errors touch neither counter. -/
def modeStep (s : ModeCounters) : STTOutcome → ModeCounters
  | .success =>
      let s1 := { s with consecutiveFailures := 0 }
      if s.mode = CaptureMode.wav then
        let s2 := { s1 with wavSuccessCount := s1.wavSuccessCount + 1 }
        if 3 ≤ s2.wavSuccessCount then
          { s2 with mode := CaptureMode.mp4, wavSuccessCount := 0,
                    consecutiveFailures := 0 }
        else s2
      else s1
  | .decodeFailure =>
      let s1 := { s with consecutiveFailures := s.consecutiveFailures + 1,
                         wavSuccessCount := 0 }
      if 2 ≤ s1.consecutiveFailures ∧ s.mode = CaptureMode.mp4 then
        { s1 with mode := CaptureMode.wav, wavSuccessCount := 0 }
      else s1
  | .abortError => s
  | .networkError => s

/-- C7: from a clean MP4 state, one decode failure keeps MP4 and a second
switches to WAV; from a clean WAV state, two successes keep WAV and the third
returns to MP4; every success resets the consecutive-failure counter and every
decode failure resets the WAV-success counter. -/
theorem c7_mode_switch :
    (∀ s : ModeCounters, s.mode = CaptureMode.mp4 → s.consecutiveFailures = 0 →
        (modeStep s .decodeFailure).mode = CaptureMode.mp4
        ∧ (modeStep (modeStep s .decodeFailure) .decodeFailure).mode
            = CaptureMode.wav)
    ∧ (∀ s : ModeCounters, s.mode = CaptureMode.wav → s.wavSuccessCount = 0 →
        (modeStep (modeStep s .success) .success).mode = CaptureMode.wav
        ∧ (modeStep (modeStep (modeStep s .success) .success) .success).mode
            = CaptureMode.mp4)
    ∧ (∀ s : ModeCounters, (modeStep s .success).consecutiveFailures = 0)
    ∧ (∀ s : ModeCounters, (modeStep s .decodeFailure).wavSuccessCount = 0) := by
  refine ⟨?_, ?_, ?_, ?_⟩
  · rintro ⟨m, f, w⟩ hm hf
    cases hm
    cases hf
    simp [modeStep]
  · rintro ⟨m, f, w⟩ hm hw
    cases hm
    cases hw
    simp [modeStep]
  · rintro ⟨m, f, w⟩
    simp only [modeStep]
    split_ifs <;> rfl
  · rintro ⟨m, f, w⟩
    simp only [modeStep]
    split_ifs <;> rfl

/-- Witness for C7: from MP4 with clean counters two decode failures reach
WAV; from WAV with clean counters three successes reach MP4. -/
theorem c7_witness :
    (modeStep (modeStep ⟨CaptureMode.mp4, 0, 0⟩ .decodeFailure)
        .decodeFailure).mode = CaptureMode.wav
    ∧ (modeStep (modeStep (modeStep ⟨CaptureMode.wav, 0, 0⟩ .success)
        .success) .success).mode = CaptureMode.mp4 :=
  ⟨(c7_mode_switch.1 ⟨CaptureMode.mp4, 0, 0⟩ rfl rfl).2,
   (c7_mode_switch.2.1 ⟨CaptureMode.wav, 0, 0⟩ rfl rfl).2⟩

/- ============================================================
   createWAVBlob: 44-byte RIFF/WAVE header followed by the 16-bit
   little-endian PCM samples, as written through the DataView.
   ============================================================ -/

/-- The writeString helper: the character codes of the marker string. -/
def writeString (s : String) : List Nat :=
  s.data.map Char.toNat

/-- A 16-bit value as DataView.setUint16 little-endian bytes. -/
def le16 (x : Nat) : List Nat :=
  [x % 256, x / 256 % 256]

/-- A 32-bit value as DataView.setUint32 little-endian bytes
(setUint32 truncates to 32 bits). -/
def le32 (x : Nat) : List Nat :=
  [x % 256, x / 256 % 256, x / 65536 % 256, x / 16777216 % 256]

/-- One 16-bit PCM sample stored little-endian in two's complement. -/
def pcm16Bytes (s : Int) : List Nat :=
  le16 ((s % 65536).toNat)

/-- createWAVBlob(pcm16Data, sampleRate): mono, 16 bits per sample, a 44-byte
canonical header, then the sample data. -/
def createWAVBlob (pcm16Data : List Int) (sampleRate : Nat) : List Nat :=
  let numChannels := 1
  let bitsPerSample := 16
  let bytesPerSample := bitsPerSample / 8
  let blockAlign := numChannels * bytesPerSample
  let dataSize := pcm16Data.length * bytesPerSample
  writeString "RIFF" ++ le32 (36 + dataSize) ++ writeString "WAVE" ++
  writeString "fmt " ++ le32 16 ++ le16 1 ++ le16 numChannels ++
  le32 sampleRate ++ le32 (sampleRate * blockAlign) ++ le16 blockAlign ++
  le16 bitsPerSample ++ writeString "data" ++ le32 dataSize ++
  pcm16Data.flatMap pcm16Bytes

/-- The wavRecorder.stop sanity check: the built blob is flagged as a sizing
defect exactly when its byte size differs from 44 + sampleCount * 2. -/
def wavSizeMismatch (pcm16Data : List Int) : Bool :=
  decide ((createWAVBlob pcm16Data 16000).length ≠ 44 + pcm16Data.length * 2)

/-- Little-endian decoding of two header bytes. -/
def readLE16 : List Nat → Nat
  | [a, b] => a + 256 * b
  | _ => 0

/-- Little-endian decoding of four header bytes. -/
def readLE32 : List Nat → Nat
  | [a, b, c, d] => a + 256 * b + 65536 * c + 16777216 * d
  | _ => 0

theorem readLE16_le16 (x : Nat) : readLE16 (le16 x) = x % 65536 := by
  simp only [readLE16, le16]
  omega

theorem readLE32_le32 (x : Nat) : readLE32 (le32 x) = x % 4294967296 := by
  simp only [readLE32, le32]
  omega

theorem pcm_bytes_length (pcm : List Int) :
    (pcm.flatMap pcm16Bytes).length = 2 * pcm.length := by
  induction pcm with
  | nil => rfl
  | cons s rest ih =>
      simp only [List.flatMap_cons, List.length_append, List.length_cons, ih,
        pcm16Bytes, le16, List.length_nil]
      omega

theorem createWAVBlob_shape (pcm : List Int) (sr : Nat) :
    createWAVBlob pcm sr =
      [82, 73, 70, 70] ++ le32 (36 + pcm.length * 2) ++ [87, 65, 86, 69] ++
      [102, 109, 116, 32] ++ le32 16 ++ le16 1 ++ le16 1 ++ le32 sr ++
      le32 (sr * 2) ++ le16 2 ++ le16 16 ++ [100, 97, 116, 97] ++
      le32 (pcm.length * 2) ++ pcm.flatMap pcm16Bytes := rfl

/-- The header byte layout, fully unfolded: 44 explicit header bytes followed
by the sample bytes. -/
theorem createWAVBlob_cons (pcm : List Int) (sr : Nat) :
    createWAVBlob pcm sr =
      82 :: 73 :: 70 :: 70 ::
      ((36 + pcm.length * 2) % 256) :: ((36 + pcm.length * 2) / 256 % 256) ::
      ((36 + pcm.length * 2) / 65536 % 256) ::
      ((36 + pcm.length * 2) / 16777216 % 256) ::
      87 :: 65 :: 86 :: 69 :: 102 :: 109 :: 116 :: 32 ::
      16 :: 0 :: 0 :: 0 :: 1 :: 0 :: 1 :: 0 ::
      (sr % 256) :: (sr / 256 % 256) :: (sr / 65536 % 256) ::
      (sr / 16777216 % 256) ::
      (sr * 2 % 256) :: (sr * 2 / 256 % 256) :: (sr * 2 / 65536 % 256) ::
      (sr * 2 / 16777216 % 256) ::
      2 :: 0 :: 16 :: 0 :: 100 :: 97 :: 116 :: 97 ::
      ((pcm.length * 2) % 256) :: ((pcm.length * 2) / 256 % 256) ::
      ((pcm.length * 2) / 65536 % 256) ::
      ((pcm.length * 2) / 16777216 % 256) ::
      pcm.flatMap pcm16Bytes := rfl

/-- C8: the WAV blob built from N 16-bit samples has byte size exactly
44 + 2N, its header is a canonical mono 16-bit PCM header (RIFF marker, RIFF
size 36 + 2N, WAVE and fmt markers, format tag 1, 1 channel, block align 2,
16 bits per sample, data marker, data size 2N), and the stop() sizing check
never flags such a blob as a defect. -/
theorem c8_wav_blob_layout (pcm : List Int) (sr : Nat) :
    (createWAVBlob pcm sr).length = 44 + 2 * pcm.length
    ∧ (createWAVBlob pcm sr).take 4 = [82, 73, 70, 70]
    ∧ readLE32 (((createWAVBlob pcm sr).drop 4).take 4)
        = (36 + 2 * pcm.length) % 4294967296
    ∧ ((createWAVBlob pcm sr).drop 8).take 4 = [87, 65, 86, 69]
    ∧ ((createWAVBlob pcm sr).drop 12).take 4 = [102, 109, 116, 32]
    ∧ readLE16 (((createWAVBlob pcm sr).drop 20).take 2) = 1
    ∧ readLE16 (((createWAVBlob pcm sr).drop 22).take 2) = 1
    ∧ readLE32 (((createWAVBlob pcm sr).drop 24).take 4) = sr % 4294967296
    ∧ readLE16 (((createWAVBlob pcm sr).drop 32).take 2) = 2
    ∧ readLE16 (((createWAVBlob pcm sr).drop 34).take 2) = 16
    ∧ ((createWAVBlob pcm sr).drop 36).take 4 = [100, 97, 116, 97]
    ∧ readLE32 (((createWAVBlob pcm sr).drop 40).take 4)
        = (2 * pcm.length) % 4294967296
    ∧ wavSizeMismatch pcm = false := by
  have hc := createWAVBlob_cons pcm sr
  refine ⟨?_, ?_, ?_, ?_, ?_, ?_, ?_, ?_, ?_, ?_, ?_, ?_, ?_⟩
  · rw [hc]
    simp only [List.length_cons, pcm_bytes_length]
    omega
  · rw [hc]
    simp [List.take_succ_cons, List.drop_succ_cons]
  · rw [hc]
    simp [List.take_succ_cons, List.drop_succ_cons, readLE32]
    omega
  · rw [hc]
    simp [List.take_succ_cons, List.drop_succ_cons]
  · rw [hc]
    simp [List.take_succ_cons, List.drop_succ_cons]
  · rw [hc]
    simp [List.take_succ_cons, List.drop_succ_cons, readLE16]
  · rw [hc]
    simp [List.take_succ_cons, List.drop_succ_cons, readLE16]
  · rw [hc]
    simp [List.take_succ_cons, List.drop_succ_cons, readLE32]
    omega
  · rw [hc]
    simp [List.take_succ_cons, List.drop_succ_cons, readLE16]
  · rw [hc]
    simp [List.take_succ_cons, List.drop_succ_cons, readLE16]
  · rw [hc]
    simp [List.take_succ_cons, List.drop_succ_cons]
  · rw [hc]
    simp [List.take_succ_cons, List.drop_succ_cons, readLE32]
    omega
  · have hlen16 : (createWAVBlob pcm 16000).length = 44 + pcm.length * 2 := by
      rw [createWAVBlob_cons pcm 16000]
      simp only [List.length_cons, pcm_bytes_length]
      omega
    simp [wavSizeMismatch, hlen16]

/- ============================================================
   Operation-id staleness (processAudio): every processing attempt
   stamps myOpId = ++currentOpIdRef.current, and each asynchronous
   continuation first compares currentOpIdRef.current with myOpId.
   ============================================================ -/

structure CoordState where
  currentOpId : Nat
  messages : List String
  enqueued : List String
  error : Option String
deriving DecidableEq, Repr

/-- Stamping a processing attempt: myOpId = ++currentOpIdRef.current. -/
def newOperation (s : CoordState) : CoordState × Nat :=
  ({ s with currentOpId := s.currentOpId + 1 }, s.currentOpId + 1)

/-- cancelProcessing / resetAudioStack: bump the operation id so late
completions are ignored. -/
def bumpOpId (s : CoordState) : CoordState :=
  { s with currentOpId := s.currentOpId + 1 }

/-- The continuation run when the transcription response arrives: discarded
when the operation id advanced, else the user message is appended. -/
def applySttResult (s : CoordState) (myOpId : Nat) (text : String) :
    CoordState :=
  if s.currentOpId ≠ myOpId then s
  else { s with messages := s.messages ++ [text] }

/-- The continuation run when the chat response arrives: discarded when the
operation id advanced, else the assistant message is appended and the
non-empty segments (correction first, then reply) are enqueued for playback. -/
def applyChatResult (s : CoordState) (myOpId : Nat) (correction : Option String)
    (reply : String) : CoordState :=
  if s.currentOpId ≠ myOpId then s
  else
    { s with
      messages := s.messages ++ [reply],
      enqueued := s.enqueued ++
        (match correction with
         | some c => [c]
         | none => []) ++ [reply] }

/-- The catch block of processAudio: a late error from a superseded operation
is ignored before any error message is surfaced. -/
def applyProcessError (s : CoordState) (myOpId : Nat) (msg : String) :
    CoordState :=
  if s.currentOpId ≠ myOpId then s
  else { s with error := some msg }

/-- C9: operation ids are stamped strictly increasing (each attempt and each
cancel advances the coordinator id), and once the coordinator id has advanced
past an attempt's stamp, the attempt's transcription result, chat result and
error are all discarded without touching messages, the playback queue or the
error state. -/
theorem c9_stale_responses_discarded :
    (∀ s : CoordState,
        (newOperation s).2 = s.currentOpId + 1
        ∧ s.currentOpId < (newOperation s).2
        ∧ (newOperation s).1.currentOpId = (newOperation s).2
        ∧ s.currentOpId < (bumpOpId s).currentOpId)
    ∧ (∀ (s : CoordState) (myOpId : Nat) (text : String),
        myOpId < s.currentOpId → applySttResult s myOpId text = s)
    ∧ (∀ (s : CoordState) (myOpId : Nat) (correction : Option String)
        (reply : String),
        myOpId < s.currentOpId → applyChatResult s myOpId correction reply = s)
    ∧ (∀ (s : CoordState) (myOpId : Nat) (msg : String),
        myOpId < s.currentOpId → applyProcessError s myOpId msg = s) := by
  refine ⟨?_, ?_, ?_, ?_⟩
  · intro s
    exact ⟨rfl, Nat.lt_succ_self _, rfl, Nat.lt_succ_self _⟩
  · intro s myOpId text h
    rw [applySttResult, if_pos (Nat.ne_of_gt h)]
  · intro s myOpId correction reply h
    unfold applyChatResult
    rw [if_pos (Nat.ne_of_gt h)]
  · intro s myOpId msg h
    rw [applyProcessError, if_pos (Nat.ne_of_gt h)]

/-- Witness for C9: a concrete attempt stamped 3 whose responses arrive after
the coordinator has advanced to 5 changes nothing. -/
theorem c9_witness :
    applySttResult ⟨5, [], [], none⟩ 3 "hola" = ⟨5, [], [], none⟩
    ∧ applyChatResult ⟨5, [], [], none⟩ 3 (some "c") "r" = ⟨5, [], [], none⟩
    ∧ applyProcessError ⟨5, [], [], none⟩ 3 "err" = ⟨5, [], [], none⟩ :=
  ⟨c9_stale_responses_discarded.2.1 ⟨5, [], [], none⟩ 3 "hola" (by decide),
   c9_stale_responses_discarded.2.2.1 ⟨5, [], [], none⟩ 3 (some "c") "r"
     (by decide),
   c9_stale_responses_discarded.2.2.2 ⟨5, [], [], none⟩ 3 "err" (by decide)⟩

/- ============================================================
   Acquisition tokens (startRecording): a monotonic token is taken
   before the asynchronous getUserMedia call; a stream resolving
   under a superseded token has every track stopped and is never
   stored or used to create a recorder.
   ============================================================ -/

structure AcqState where
  token : Nat
  pending : List Nat
  currentStream : Option Nat
  recorder : Option Nat
  stopped : List Nat
deriving DecidableEq, Repr

inductive AcqEvent
  | beginAcquire
  | resolveStream (t : Nat)
  | teardown
deriving DecidableEq, Repr

/-- The token logic of startRecording and its cleanup paths: beginAcquire is
myToken = ++acquireTokenRef.current before the await; resolveStream is the
continuation after the stream promise settles, which stops the stream's tracks
when the token is stale and otherwise stores the stream and creates the
recorder over it; teardown is the stop/cancel path that stops the current
stream and drops the recorder. -/
def acqStep (s : AcqState) : AcqEvent → AcqState
  | .beginAcquire =>
      { s with token := s.token + 1, pending := s.pending ++ [s.token + 1] }
  | .resolveStream t =>
      if t ∈ s.pending then
        let pending' := s.pending.filter (fun x => x != t)
        if s.token ≠ t then
          { s with pending := pending', stopped := s.stopped ++ [t] }
        else
          { s with pending := pending', currentStream := some t,
                   recorder := some t }
      else s
  | .teardown =>
      { s with
        stopped := match s.currentStream with
                   | some t => s.stopped ++ [t]
                   | none => s.stopped,
        currentStream := none, recorder := none }

def acqInit : AcqState := ⟨0, [], none, none, []⟩

def runAcqFrom (s : AcqState) (evs : List AcqEvent) : AcqState :=
  evs.foldl acqStep s

def runAcq (evs : List AcqEvent) : AcqState :=
  runAcqFrom acqInit evs

/-- Reachable-state invariant of the token machine: pending tokens were issued
(≤ token); a stopped token is no longer pending and was issued; and the stored
stream and the recorder hold only tokens that resolved fresh: never stopped,
no longer pending, and issued. -/
def AcqInv (s : AcqState) : Prop :=
  (∀ t ∈ s.pending, t ≤ s.token)
  ∧ (∀ t ∈ s.stopped, t ∉ s.pending ∧ t ≤ s.token)
  ∧ (∀ t, s.currentStream = some t → t ∉ s.stopped ∧ t ∉ s.pending ∧ t ≤ s.token)
  ∧ (∀ t, s.recorder = some t → t ∉ s.stopped ∧ t ∉ s.pending ∧ t ≤ s.token)

theorem notMem_filter_self (l : List Nat) (t : Nat) :
    t ∉ l.filter (fun x => x != t) := by
  intro hc
  have := (List.mem_filter.mp hc).2
  simp at this

theorem acqStep_inv (s : AcqState) (e : AcqEvent) (h : AcqInv s) :
    AcqInv (acqStep s e) := by
  obtain ⟨h1, h2, h3, h4⟩ := h
  cases e with
  | beginAcquire =>
      simp only [acqStep]
      refine ⟨?_, ?_, ?_, ?_⟩
      · intro t ht
        rcases List.mem_append.mp ht with hm | hm
        · exact Nat.le_succ_of_le (h1 t hm)
        · simp only [List.mem_singleton] at hm
          exact le_of_eq hm
      · intro t ht
        refine ⟨?_, Nat.le_succ_of_le (h2 t ht).2⟩
        intro hmem
        rcases List.mem_append.mp hmem with hm | hm
        · exact (h2 t ht).1 hm
        · simp only [List.mem_singleton] at hm
          have := (h2 t ht).2
          omega
      · intro t hc
        obtain ⟨hs, hpd, hle⟩ := h3 t hc
        refine ⟨hs, ?_, Nat.le_succ_of_le hle⟩
        intro hmem
        rcases List.mem_append.mp hmem with hm | hm
        · exact hpd hm
        · simp only [List.mem_singleton] at hm
          omega
      · intro t hc
        obtain ⟨hs, hpd, hle⟩ := h4 t hc
        refine ⟨hs, ?_, Nat.le_succ_of_le hle⟩
        intro hmem
        rcases List.mem_append.mp hmem with hm | hm
        · exact hpd hm
        · simp only [List.mem_singleton] at hm
          omega
  | resolveStream t =>
      simp only [acqStep]
      by_cases hmem : t ∈ s.pending
      · rw [if_pos hmem]
        by_cases htok : s.token ≠ t
        · rw [if_pos htok]
          refine ⟨?_, ?_, ?_, ?_⟩
          · intro u hu
            exact h1 u (List.mem_of_mem_filter hu)
          · intro u hu
            rcases List.mem_append.mp hu with hm | hm
            · exact ⟨fun hc => (h2 u hm).1 (List.mem_of_mem_filter hc),
                     (h2 u hm).2⟩
            · simp only [List.mem_singleton] at hm
              subst hm
              exact ⟨notMem_filter_self _ _, h1 u hmem⟩
          · intro u hc
            obtain ⟨hs, hpd, hle⟩ := h3 u hc
            refine ⟨?_, fun hc' => hpd (List.mem_of_mem_filter hc'), hle⟩
            intro hmem'
            rcases List.mem_append.mp hmem' with hm | hm
            · exact hs hm
            · simp only [List.mem_singleton] at hm
              subst hm
              exact hpd hmem
          · intro u hc
            obtain ⟨hs, hpd, hle⟩ := h4 u hc
            refine ⟨?_, fun hc' => hpd (List.mem_of_mem_filter hc'), hle⟩
            intro hmem'
            rcases List.mem_append.mp hmem' with hm | hm
            · exact hs hm
            · simp only [List.mem_singleton] at hm
              subst hm
              exact hpd hmem
        · rw [if_neg htok]
          push_neg at htok
          refine ⟨?_, ?_, ?_, ?_⟩
          · intro u hu
            exact h1 u (List.mem_of_mem_filter hu)
          · intro u hu
            exact ⟨fun hc => (h2 u hu).1 (List.mem_of_mem_filter hc),
                   (h2 u hu).2⟩
          · intro u hc
            simp only [Option.some.injEq] at hc
            subst hc
            exact ⟨fun hst => (h2 t hst).1 hmem, notMem_filter_self _ _,
                   h1 t hmem⟩
          · intro u hc
            simp only [Option.some.injEq] at hc
            subst hc
            exact ⟨fun hst => (h2 t hst).1 hmem, notMem_filter_self _ _,
                   h1 t hmem⟩
      · rw [if_neg hmem]
        exact ⟨h1, h2, h3, h4⟩
  | teardown =>
      simp only [acqStep]
      cases hc : s.currentStream with
      | none =>
          refine ⟨h1, ?_, ?_, ?_⟩
          · intro u hu
            exact h2 u hu
          · intro u hcc
            simp at hcc
          · intro u hcc
            simp at hcc
      | some v =>
          obtain ⟨hvs, hvp, hvle⟩ := h3 v hc
          refine ⟨h1, ?_, ?_, ?_⟩
          · intro u hu
            rcases List.mem_append.mp hu with hm | hm
            · exact h2 u hm
            · simp only [List.mem_singleton] at hm
              subst hm
              exact ⟨hvp, hvle⟩
          · intro u hcc
            simp at hcc
          · intro u hcc
            simp at hcc

theorem acqStep_stopped_mono (s : AcqState) (e : AcqEvent) (t : Nat)
    (h : t ∈ s.stopped) : t ∈ (acqStep s e).stopped := by
  cases e with
  | beginAcquire => exact h
  | resolveStream u =>
      simp only [acqStep]
      by_cases hmem : u ∈ s.pending
      · rw [if_pos hmem]
        by_cases htok : s.token ≠ u
        · rw [if_pos htok]
          exact List.mem_append_left _ h
        · rw [if_neg htok]
          exact h
      · rw [if_neg hmem]
        exact h
  | teardown =>
      simp only [acqStep]
      cases s.currentStream with
      | none => exact h
      | some v => exact List.mem_append_left _ h

theorem runAcqFrom_stopped_never_used : ∀ (evs : List AcqEvent) (s : AcqState),
    AcqInv s → ∀ N ∈ s.stopped,
    N ∈ (runAcqFrom s evs).stopped
    ∧ (runAcqFrom s evs).recorder ≠ some N
    ∧ (runAcqFrom s evs).currentStream ≠ some N := by
  intro evs
  induction evs with
  | nil =>
      intro s hinv N hN
      exact ⟨hN, fun hr => (hinv.2.2.2 N hr).1 hN,
             fun hcur => (hinv.2.2.1 N hcur).1 hN⟩
  | cons e rest ih =>
      intro s hinv N hN
      exact ih (acqStep s e) (acqStep_inv s e hinv)
        N (acqStep_stopped_mono s e N hN)

theorem runAcq_inv (evs : List AcqEvent) : AcqInv (runAcq evs) := by
  have hbase : AcqInv acqInit := by
    refine ⟨?_, ?_, ?_, ?_⟩ <;> intro t ht <;> simp [acqInit] at ht
  show AcqInv (runAcqFrom acqInit evs)
  generalize acqInit = s at hbase ⊢
  induction evs generalizing s with
  | nil => exact hbase
  | cons e rest ih => exact ih (acqStep s e) (acqStep_inv s e hbase)

/-- C2: if the stream acquired under token N resolves after the coordinator
token has advanced past N (a newer capture was started), the stale resolution
immediately records N's tracks as stopped while leaving the stored stream and
the recorder untouched, and at every later point in the run no recorder and no
stored stream ever refers to stream N. -/
theorem c2_stale_stream_never_recorded (evs1 : List AcqEvent) (N : Nat)
    (evs2 : List AcqEvent) (hp : N ∈ (runAcq evs1).pending)
    (hlt : N < (runAcq evs1).token) :
    N ∈ (acqStep (runAcq evs1) (AcqEvent.resolveStream N)).stopped
    ∧ (acqStep (runAcq evs1) (AcqEvent.resolveStream N)).recorder
        = (runAcq evs1).recorder
    ∧ (acqStep (runAcq evs1) (AcqEvent.resolveStream N)).currentStream
        = (runAcq evs1).currentStream
    ∧ N ∈ (runAcqFrom
        (acqStep (runAcq evs1) (AcqEvent.resolveStream N)) evs2).stopped
    ∧ (runAcqFrom
        (acqStep (runAcq evs1) (AcqEvent.resolveStream N)) evs2).recorder
        ≠ some N
    ∧ (runAcqFrom
        (acqStep (runAcq evs1) (AcqEvent.resolveStream N)) evs2).currentStream
        ≠ some N := by
  have hne : (runAcq evs1).token ≠ N := Ne.symm (Nat.ne_of_lt hlt)
  have hstep : acqStep (runAcq evs1) (AcqEvent.resolveStream N)
      = { runAcq evs1 with
            pending := (runAcq evs1).pending.filter (fun x => x != N),
            stopped := (runAcq evs1).stopped ++ [N] } := by
    simp only [acqStep]
    rw [if_pos hp, if_pos hne]
  have hmemstop : N ∈ (acqStep (runAcq evs1) (AcqEvent.resolveStream N)).stopped := by
    rw [hstep]
    exact List.mem_append_right _ (List.mem_singleton.mpr rfl)
  have hinv1 : AcqInv (acqStep (runAcq evs1) (AcqEvent.resolveStream N)) :=
    acqStep_inv _ _ (runAcq_inv evs1)
  have hrest := runAcqFrom_stopped_never_used evs2 _ hinv1 N hmemstop
  exact ⟨hmemstop, by rw [hstep], by rw [hstep],
         hrest.1, hrest.2.1, hrest.2.2⟩

/-- Witness for C2: two acquisitions are begun (tokens 1 and 2); token 1's
stream resolves late and is stopped; after token 2 resolves, the recorder
refers to stream 2, never stream 1. -/
theorem c2_witness :
    1 ∈ (runAcqFrom
      (acqStep (runAcq [AcqEvent.beginAcquire, AcqEvent.beginAcquire])
        (AcqEvent.resolveStream 1)) [AcqEvent.resolveStream 2]).stopped
    ∧ (runAcqFrom
      (acqStep (runAcq [AcqEvent.beginAcquire, AcqEvent.beginAcquire])
        (AcqEvent.resolveStream 1)) [AcqEvent.resolveStream 2]).recorder
      ≠ some 1 := by
  have h := c2_stale_stream_never_recorded
    [AcqEvent.beginAcquire, AcqEvent.beginAcquire] 1 [AcqEvent.resolveStream 2]
    (by decide) (by decide)
  exact ⟨h.2.2.2.1, h.2.2.2.2.1⟩

/- ============================================================
   TTSManager playback driver: the play counter and the audio
   element rotation hook (_maybeRotateAudioElement), called from
   exactly two sites inside the _process loop.
   ============================================================ -/

structure TTSMState where
  playCount : Nat
  rotateEvery : Nat
  processing : Bool
  audioPlaying : Bool
  elementGen : Nat
  primed : Bool
deriving DecidableEq, Repr

/-- The TTSManager constructor: playCount 0, rotateEvery 20, no audio element
yet (elementGen counts _createAudioElement calls). -/
def TTSManager.mkManager : TTSMState :=
  ⟨0, 20, false, false, 0, false⟩

/-- ensureAudioEl: create the element only if none exists yet. -/
def TTSManager.ensureAudioEl (s : TTSMState) : TTSMState :=
  if s.elementGen = 0 then { s with elementGen := 1 } else s

/-- _maybeRotateAudioElement: rotate only when the play counter is a positive
multiple of rotateEvery AND nothing is playing AND the driver is not
processing. -/
def TTSManager.maybeRotateAudioElement (s : TTSMState) : TTSMState :=
  if 0 < s.playCount ∧ s.playCount % s.rotateEvery = 0 then
    if s.audioPlaying = false ∧ s.processing = false then
      { s with elementGen := s.elementGen + 1, primed := false }
    else s
  else s

/-- One successful iteration of the _process while loop: play() succeeds, the
play counter advances, the audio reaches its natural end, and then
_maybeRotateAudioElement runs while this.processing is still true (it is only
cleared after the loop exits). -/
def TTSManager.playOneSuccess (s : TTSMState) : TTSMState :=
  TTSManager.maybeRotateAudioElement
    { s with playCount := s.playCount + 1, audioPlaying := false }

/-- _process over a queue of n items that all play to successful completion:
processing is set before the loop and cleared after it. -/
def TTSManager.processQueueSuccess (s : TTSMState) (n : Nat) : TTSMState :=
  let s1 := TTSManager.playOneSuccess^[n] { s with processing := true }
  { s1 with processing := false }

/-- C5 (code evaluated at the failing input): after 20 — and even 40 —
successful plays from a fresh driver, no audio element replacement has
happened (elementGen is still the single element made by ensureAudioEl),
because both call sites of _maybeRotateAudioElement sit inside the _process
loop where this.processing is true and the rotation guard requires it false;
and the guard does keep rotation from ever firing while audio is playing. -/
theorem c5_rotation_never_fires_on_success :
    (TTSManager.processQueueSuccess
        (TTSManager.ensureAudioEl TTSManager.mkManager) 20).playCount = 20
    ∧ (TTSManager.processQueueSuccess
        (TTSManager.ensureAudioEl TTSManager.mkManager) 20).elementGen = 1
    ∧ (TTSManager.processQueueSuccess
        (TTSManager.ensureAudioEl TTSManager.mkManager) 40).elementGen = 1
    ∧ TTSManager.maybeRotateAudioElement ⟨20, 20, false, true, 1, true⟩
        = ⟨20, 20, false, true, 1, true⟩ := by
  refine ⟨by decide, by decide, by decide, by decide⟩

/- ============================================================
   Gesture release (stopRecording): the sub-800 ms short path and
   what the recorder teardown actually triggers in each mode.
   ============================================================ -/

inductive RecKind
  | wavRecorder
  | mediaRecorder
deriving DecidableEq, Repr

structure StopOutcome where
  transcriptionInvoked : Bool
  errorShown : Option String
  recorderCleared : Bool
deriving DecidableEq, Repr

/-- stopRecording on button release, given the active recorder kind and the
bytes of buffered chunk data the encoder flushes on stop. Under 800 ms the
code logs the short duration and tears the recorder down: for the WAV recorder
the stop() result blob is discarded, but stopping a MediaRecorder fires its
onstop handler, which hands any non-empty buffered chunks to processAudio and
surfaces the no-audio error when the chunks are empty. At or above 800 ms both
modes hand a non-empty blob to processAudio. -/
def stopRecordingFlow (kind : RecKind) (durationMs : Nat)
    (finalChunkBytes : Nat) : StopOutcome :=
  if durationMs < 800 then
    match kind with
    | .wavRecorder =>
        { transcriptionInvoked := false, errorShown := none,
          recorderCleared := true }
    | .mediaRecorder =>
        if 0 < finalChunkBytes then
          { transcriptionInvoked := true, errorShown := none,
            recorderCleared := true }
        else
          { transcriptionInvoked := false,
            errorShown := some
              "No audio recorded. Try speaking closer to the microphone.",
            recorderCleared := true }
  else
    if 0 < finalChunkBytes then
      { transcriptionInvoked := true, errorShown := none,
        recorderCleared := true }
    else
      { transcriptionInvoked := false,
        errorShown := some
          "No audio recorded. Try speaking closer to the microphone.",
        recorderCleared := true }

/-- C6 (code evaluated at the failing input): a 500 ms MediaRecorder-mode
release with a non-empty flushed chunk still invokes transcription (the onstop
handler processes the blob), and with an empty chunk it surfaces an error —
neither is the silent discard the claim requires; only the WAV path discards
silently. -/
theorem c6_short_gesture_behaviour :
    stopRecordingFlow RecKind.mediaRecorder 500 4096
      = { transcriptionInvoked := true, errorShown := none,
          recorderCleared := true }
    ∧ stopRecordingFlow RecKind.wavRecorder 500 4096
      = { transcriptionInvoked := false, errorShown := none,
          recorderCleared := true }
    ∧ stopRecordingFlow RecKind.mediaRecorder 500 0
      = { transcriptionInvoked := false,
          errorShown := some
            "No audio recorded. Try speaking closer to the microphone.",
          recorderCleared := true } :=
  ⟨rfl, rfl, rfl⟩

/- ============================================================
   Lifecycle coordinator (App): the busyRef ownership flags
   (isRecording / isProcessing / autoTTSPlaying) and the event
   handlers that write them. Each event is one synchronous segment
   of the corresponding handler; permission is granted and the
   isRequestingPermission / isCleaningUp guards are idle.
   ============================================================ -/

structure BusyFlags where
  isRecording : Bool
  isProcessing : Bool
  autoTTSPlaying : Bool
deriving DecidableEq, Repr

structure LcState where
  busy : BusyFlags
  /-- isButtonPressedRef -/
  buttonPressed : Bool
  /-- the isRecording React state -/
  reactRecording : Bool
  /-- the isProcessing React state -/
  reactProcessing : Bool
  /-- recorderRef.current is non-null -/
  recorderActive : Bool
  /-- a processAudio invocation is in flight (its finally has not run) -/
  opPending : Bool
  /-- ttsManager.onQueueComplete is non-null -/
  callbackSet : Bool
  /-- the TTS driver is playing or holds a current item -/
  audioActive : Bool
  /-- appLifecycle is the ready state -/
  lifecycleReady : Bool
deriving DecidableEq, Repr

inductive LcEvent
  /-- handleButtonPress through the synchronous part of startRecording -/
  | press
  /-- stopRecording with elapsed time under 800 ms -/
  | releaseShort
  /-- stopRecording past 800 ms, handing the blob to processAudio -/
  | releaseLong
  /-- processAudio receives the chat reply with playable segments -/
  | replyParts
  /-- processAudio receives a reply with nothing to play -/
  | replyNoParts
  /-- the processAudio catch block runs for the current operation -/
  | procError
  /-- the processAudio finally block runs -/
  | procFinally
  /-- the TTS queue drains and fires onQueueComplete -/
  | queueComplete
  /-- cancelProcessing -/
  | cancel
  /-- visibilitychange to hidden -/
  | background
  /-- the explicit resume action's finally block -/
  | resume
deriving DecidableEq, Repr

/-- The flag writes of each handler, in source order. press sets
busyRef.isRecording before pauseIfPlaying, and pauseIfPlaying nulls
onQueueComplete only when something is audible; startRecording then bails out
without recording when the lifecycle is not ready, a recorder exists, or the
React recording/processing state is set. releaseLong sets isRecording false
and isProcessing true before stopping the recorder; processAudio's segments
run only while the operation is in flight. cancel and resume clear all three
flags in their finally blocks; backgrounding changes no busy flag. -/
def lcStep (s : LcState) : LcEvent → LcState
  | .press =>
      if s.buttonPressed then s
      else
        let s1 : LcState :=
          { s with buttonPressed := true,
                   busy := { s.busy with isRecording := true },
                   callbackSet := if s.audioActive then false else s.callbackSet,
                   audioActive := false }
        if s.lifecycleReady = false ∨ s.recorderActive = true
            ∨ s.reactRecording = true ∨ s.reactProcessing = true then s1
        else { s1 with reactRecording := true, recorderActive := true }
  | .releaseShort =>
      let s1 := { s with buttonPressed := false }
      if s.reactRecording = false then s1
      else { s1 with reactRecording := false, recorderActive := false }
  | .releaseLong =>
      let s1 := { s with buttonPressed := false }
      if s.reactRecording = false then s1
      else
        let s2 := { s1 with
          busy := ⟨false, true, s.busy.autoTTSPlaying⟩,
          reactRecording := false }
        if s.recorderActive then
          { s2 with recorderActive := false, opPending := true,
                    reactProcessing := true }
        else s2
  | .replyParts =>
      if s.opPending then
        { s with busy := ⟨s.busy.isRecording, false, true⟩,
                 callbackSet := true, audioActive := true }
      else s
  | .replyNoParts =>
      if s.opPending then
        { s with busy := { s.busy with isProcessing := false } }
      else s
  | .procError =>
      if s.opPending then
        { s with busy := { s.busy with isProcessing := false,
                                       autoTTSPlaying := false } }
      else s
  | .procFinally =>
      if s.opPending then
        { s with busy := { s.busy with isRecording := false,
                                       isProcessing := false },
                 opPending := false, reactProcessing := false }
      else s
  | .queueComplete =>
      if s.callbackSet then
        { s with busy := { s.busy with autoTTSPlaying := false },
                 callbackSet := false, audioActive := false }
      else s
  | .cancel =>
      { s with busy := ⟨false, false, false⟩, reactProcessing := false,
               recorderActive := false, callbackSet := false,
               audioActive := false }
  | .background => { s with lifecycleReady := false }
  | .resume =>
      { s with busy := ⟨false, false, false⟩, lifecycleReady := true,
               reactRecording := false, reactProcessing := false,
               recorderActive := false, callbackSet := false,
               audioActive := false }

def lcInit : LcState :=
  ⟨⟨false, false, false⟩, false, false, false, false, false, false, false, true⟩

def runLc (evs : List LcEvent) : LcState :=
  evs.foldl lcStep lcInit

/-- No two of the three ownership flags hold at once. -/
def atMostOneBusy (b : BusyFlags) : Prop :=
  ¬(b.isRecording = true ∧ b.isProcessing = true)
  ∧ ¬(b.isRecording = true ∧ b.autoTTSPlaying = true)
  ∧ ¬(b.isProcessing = true ∧ b.autoTTSPlaying = true)

/-- The press restriction of the amended claim: the record button is pressed
only when all three ownership flags are clear and no processing operation is
still in flight. -/
def pressFromIdle (s : LcState) : Prop :=
  s.busy = ⟨false, false, false⟩ ∧ s.opPending = false

/-- Traces in which every press satisfies the press restriction at the state
where it fires. -/
def safeTrace : LcState → List LcEvent → Prop
  | _, [] => True
  | s, e :: rest =>
      (e = LcEvent.press → pressFromIdle s) ∧ safeTrace (lcStep s e) rest

/-- The inductive invariant behind the amended single-owner claim. -/
def LcInv (s : LcState) : Prop :=
  atMostOneBusy s.busy
  ∧ (s.reactRecording = true →
      s.opPending = false ∧ s.busy.isProcessing = false
      ∧ s.busy.autoTTSPlaying = false)
  ∧ (s.opPending = true → s.busy.isRecording = false)

instance (b : BusyFlags) : Decidable (atMostOneBusy b) := by
  unfold atMostOneBusy
  infer_instance

instance (s : LcState) : Decidable (pressFromIdle s) := by
  unfold pressFromIdle
  infer_instance

instance (s : LcState) : Decidable (LcInv s) := by
  unfold LcInv
  infer_instance

instance safeTraceDecidable :
    (s : LcState) → (evs : List LcEvent) → Decidable (safeTrace s evs)
  | _, [] => isTrue trivial
  | s, e :: rest =>
      haveI := safeTraceDecidable (lcStep s e) rest
      decidable_of_iff
        ((e = LcEvent.press → pressFromIdle s) ∧ safeTrace (lcStep s e) rest)
        Iff.rfl

theorem lcStep_preserves (s : LcState) (e : LcEvent) (hI : LcInv s)
    (hp : e = LcEvent.press → pressFromIdle s) : LcInv (lcStep s e) := by
  obtain ⟨⟨r, p, a⟩, bp, rr, rp, rec, op, cb, au, lr⟩ := s
  revert hI hp
  revert r p a bp rr rp rec op cb au lr
  cases e <;> decide

theorem lc_run_inv : ∀ (evs : List LcEvent) (s : LcState),
    LcInv s → safeTrace s evs → LcInv (evs.foldl lcStep s) := by
  intro evs
  induction evs with
  | nil => intro s h _; exact h
  | cons e rest ih =>
      intro s h hsafe
      exact ih (lcStep s e) (lcStep_preserves s e h hsafe.1) hsafe.2

/-- C1 counterexample: press, hold past 800 ms, release, let the reply arrive
and auto-play begin, then press again while auto-play is active. The second
press sets the recording flag while the auto-playing flag is still set
(handleButtonPress raises busyRef.isRecording and pauseIfPlaying nulls the
queue-complete callback without clearing busyRef.autoTTSPlaying), so two
ownership flags are true at the same instant. -/
theorem c1_counterexample :
    (runLc [LcEvent.press, LcEvent.releaseLong, LcEvent.replyParts,
            LcEvent.press]).busy.isRecording = true
    ∧ (runLc [LcEvent.press, LcEvent.releaseLong, LcEvent.replyParts,
            LcEvent.press]).busy.autoTTSPlaying = true
    ∧ ¬ atMostOneBusy (runLc [LcEvent.press, LcEvent.releaseLong,
            LcEvent.replyParts, LcEvent.press]).busy := by
  refine ⟨by decide, by decide, by decide⟩

/-- C1 (amended): over every event sequence in which the record button is
pressed only from the idle state (all three ownership flags clear, no
processing operation in flight), at most one of the recording, processing and
auto-playing flags is true at any instant. -/
theorem c1_amended_single_owner (evs : List LcEvent)
    (hsafe : safeTrace lcInit evs) : atMostOneBusy (runLc evs).busy :=
  (lc_run_inv evs lcInit (by decide) hsafe).1

/-- Witness for the amended C1 at a concrete full cycle: press, long release,
reply with playable parts, the processing finally block, queue completion. -/
theorem c1_amended_witness :
    atMostOneBusy (runLc [LcEvent.press, LcEvent.releaseLong,
        LcEvent.replyParts, LcEvent.procFinally, LcEvent.queueComplete]).busy :=
  c1_amended_single_owner
    [LcEvent.press, LcEvent.releaseLong, LcEvent.replyParts,
     LcEvent.procFinally, LcEvent.queueComplete] (by decide)
